import Mathlib

/-!
Verification of the multi-step form controller (`useMultiStepForm` and its
orchestrating component `MultiStepForm`) of the reactjs-course repository.

The controller state is `{currentStep, formData, isSubmitted}`; form data is a
JavaScript object, modelled as an association list of string keys and field
values, with the object-spread merge `{...prev, ...newData}` modelled by
`spread`. The hook's operations (`goToNextStep`, `goToPreviousStep`,
`updateFormData`, `submitForm`, `resetForm`, `getCurrentStepSchema`) are pure
state transformers here. The step count appears in the source only as
`steps.length`; operations that read it are parameterised by `numSteps` and
instantiated with `steps.length` (which is 3) for the concrete app.
-/

namespace MultiStepForm

/-- A form field value: a string (also used for enum tags) or a boolean. -/
inductive Value where
  | str (s : String)
  | boolVal (b : Bool)
deriving DecidableEq

/-- `Partial<StepFormData>`: a JavaScript object mapping field names to values,
modelled as an association list (first binding of a key wins on lookup). -/
abbrev FormData : Type := List (String × Value)

/-- JavaScript property lookup on the association-list model of an object. -/
def lookup : FormData → String → Option Value
  | [], _ => none
  | (k, v) :: rest, key => if k = key then some v else lookup rest key

/-- The keys of a form-data object, in order. -/
def keys (fd : FormData) : List String := fd.map Prod.fst

/-- The JavaScript object spread `{...prev, ...newData}`: keys of `prev` keep
their position, with their value overwritten by `newData` where present; keys
of `newData` absent from `prev` are appended in `newData` order. -/
def spread (prev newData : FormData) : FormData :=
  (prev.map fun e =>
    match lookup newData e.1 with
    | some v => (e.1, v)
    | none => e)
  ++ newData.filter fun e => (lookup prev e.1).isNone

/-- Opaque token for a lucide-react icon component. -/
inductive IconRef where
  | User
  | Briefcase
  | CreditCard
deriving DecidableEq

/-- One entry of the `steps` metadata table (`Step` in types.ts). -/
structure Step where
  id : String
  name : String
  icon : IconRef
deriving DecidableEq

/-- The three zod schemas of types.ts, identified by name (their internal
validation rules are opaque to the controller). -/
inductive Schema where
  | personalInfoSchema
  | professionalInfoSchema
  | billingInfoSchema
deriving DecidableEq

/-- `stepSchemas` table from the hook module. -/
def stepSchemas : List Schema :=
  [Schema.personalInfoSchema, Schema.professionalInfoSchema, Schema.billingInfoSchema]

/-- `steps` table from the hook module. -/
def steps : List Step :=
  [⟨"personal", "Personal Info", IconRef.User⟩,
   ⟨"professional", "Professional Info", IconRef.Briefcase⟩,
   ⟨"billing", "Billing Info", IconRef.CreditCard⟩]

/-- The state owned by `useMultiStepForm`: the three `useState` cells. -/
structure ControllerState where
  currentStep : Nat
  formData : FormData
  isSubmitted : Bool
deriving DecidableEq

/-- The initial state of the hook: `useState(0)`, `useState({})`, `useState(false)`. -/
def initialState : ControllerState :=
  { currentStep := 0, formData := [], isSubmitted := false }

/-- `isFirstStep = currentStep === 0`. -/
def isFirstStep (s : ControllerState) : Bool := s.currentStep == 0

/-- `isLastStep = currentStep === steps.length - 1`, with the step count as a
parameter (`steps.length` in the concrete app). -/
def isLastStep (numSteps : Nat) (s : ControllerState) : Bool :=
  s.currentStep == numSteps - 1

/-- `getCurrentStepSchema = () => stepSchemas[currentStep]`; JavaScript index
out of range yields `undefined`, modelled by `Option`. -/
def getCurrentStepSchema (s : ControllerState) : Option Schema :=
  stepSchemas.get? s.currentStep

/-- `goToNextStep`: if not on the last step, increment `currentStep`. -/
def goToNextStep (numSteps : Nat) (s : ControllerState) : ControllerState :=
  if isLastStep numSteps s then s
  else { s with currentStep := s.currentStep + 1 }

/-- `goToPreviousStep`: if not on the first step, decrement `currentStep`. -/
def goToPreviousStep (s : ControllerState) : ControllerState :=
  if isFirstStep s then s
  else { s with currentStep := s.currentStep - 1 }

/-- `updateFormData`: `setFormData(prev => ({...prev, ...newData}))`. -/
def updateFormData (s : ControllerState) (newData : FormData) : ControllerState :=
  { s with formData := spread s.formData newData }

/-- `submitForm`: logs the final data and sets `isSubmitted` to `true`. -/
def submitForm (s : ControllerState) (data : FormData) : ControllerState :=
  { s with isSubmitted := true }

/-- `resetForm`: restores all three state cells to their initial values. -/
def resetForm (s : ControllerState) : ControllerState :=
  { currentStep := 0, formData := [], isSubmitted := false }

/-- The controller's command alphabet: one constructor per hook operation. -/
inductive Op where
  | advance
  | retreat
  | merge (d : FormData)
  | submit (d : FormData)
  | reset

/-- Dispatch one command to the corresponding hook operation. -/
def applyOp (numSteps : Nat) (s : ControllerState) : Op → ControllerState
  | Op.advance => goToNextStep numSteps s
  | Op.retreat => goToPreviousStep s
  | Op.merge d => updateFormData s d
  | Op.submit d => submitForm s d
  | Op.reset => resetForm s

/-- Run a sequence of controller operations from a state. -/
def runOps (numSteps : Nat) (s : ControllerState) (ops : List Op) : ControllerState :=
  ops.foldl (applyOp numSteps) s

/-- The `onNext` handler of the orchestrating component: validate (outcome
supplied by the caller as `isValid`), on success merge the step data into the
accumulated data, then submit on the last step or advance otherwise. -/
def onNext (isValid : Bool) (s : ControllerState) (data : FormData) : ControllerState :=
  if isValid then
    let updatedData := spread s.formData data
    let s1 := updateFormData s updatedData
    if isLastStep steps.length s then submitForm s1 updatedData
    else goToNextStep steps.length s1
  else s

/-- The `onPrevious` handler: go back unconditionally, never validating. -/
def onPrevious (s : ControllerState) : ControllerState := goToPreviousStep s

/-- The transitions the rendered UI can drive: while the form is shown
(`isSubmitted = false`) the two buttons fire `onNext` (with some validation
outcome and step data) or `onPrevious`; on the success screen
(`isSubmitted = true`) the only button fires `resetForm`. -/
inductive UiStep : ControllerState → ControllerState → Prop where
  | next (v : Bool) (d : FormData) (s : ControllerState) (h : s.isSubmitted = false) :
      UiStep s (onNext v s d)
  | prev (s : ControllerState) (h : s.isSubmitted = false) :
      UiStep s (onPrevious s)
  | reset (s : ControllerState) (h : s.isSubmitted = true) :
      UiStep s (resetForm s)

/-! ### The concrete scenario data of the specification's test walk-through -/

/-- The personal-info step data of the scenario. -/
def personalData : FormData :=
  [("firstName", Value.str "A"), ("lastName", Value.str "B"),
   ("email", Value.str "a@b.com"), ("phone", Value.str "01234567890")]

/-- The professional-info step data of the scenario. -/
def professionalData : FormData :=
  [("company", Value.str "X"), ("position", Value.str "Y"),
   ("experience", Value.str "0-2"), ("industry", Value.str "Z")]

/-- The billing-info step data of the scenario. -/
def billingData : FormData :=
  [("cardNumber", Value.str "1234567812345678"), ("cardHolder", Value.str "A B"),
   ("expiryDate", Value.str "1225"), ("cvv", Value.str "123")]

/-- Scenario state after `mergeStepData` of the personal fields. -/
def sc1 : ControllerState := updateFormData initialState personalData

/-- Scenario state after the first `advance`. -/
def sc2 : ControllerState := goToNextStep steps.length sc1

/-- Scenario state after `retreat`. -/
def sc3 : ControllerState := goToPreviousStep sc2

/-- Scenario state after advancing again. -/
def sc4 : ControllerState := goToNextStep steps.length sc3

/-- Scenario state after `mergeStepData` of the professional fields. -/
def sc5 : ControllerState := updateFormData sc4 professionalData

/-- Scenario state after the advance onto the billing step. -/
def sc6 : ControllerState := goToNextStep steps.length sc5

/-- Scenario state after the orchestrated submit of the billing fields
(`onNext` with successful validation on the last step, which merges via
`updateFormData` and then calls `submitForm`). -/
def sc7 : ControllerState := onNext true sc6 billingData

/-- Scenario state after `reset`. -/
def sc8 : ControllerState := resetForm sc7

/-- The scenario exactly as the claim states it, with the submit of the billing
fields performed by the controller's own `submitForm` operation. -/
def scenarioAsStated : ControllerState :=
  runOps steps.length initialState
    [Op.merge personalData, Op.advance, Op.retreat, Op.advance,
     Op.merge professionalData, Op.advance, Op.submit billingData]

/-! ### Lemmas about `lookup`, `keys` and `spread` -/

theorem lookup_append (l1 l2 : FormData) (k : String) :
    lookup (l1 ++ l2) k =
      match lookup l1 k with
      | some v => some v
      | none => lookup l2 k := by
  induction l1 with
  | nil => rfl
  | cons e rest ih =>
      obtain ⟨k1, v1⟩ := e
      by_cases h : k1 = k <;> simp [lookup, h, ih]

theorem lookup_map_update (prev nd : FormData) (k : String) :
    lookup (prev.map fun e =>
        match lookup nd e.1 with
        | some v => (e.1, v)
        | none => e) k =
      match lookup prev k with
      | some v => some ((lookup nd k).getD v)
      | none => none := by
  induction prev with
  | nil => rfl
  | cons e rest ih =>
      obtain ⟨k1, v1⟩ := e
      by_cases h : k1 = k
      · subst h
        cases hnd : lookup nd k1 <;> simp [lookup, hnd]
      · cases hnd : lookup nd k1 <;> simp [lookup, h, hnd, ih]

theorem lookup_filter_of_absent (prev nd : FormData) (k : String)
    (h : lookup prev k = none) :
    lookup (nd.filter fun e => (lookup prev e.1).isNone) k = lookup nd k := by
  induction nd with
  | nil => rfl
  | cons e rest ih =>
      obtain ⟨k1, v1⟩ := e
      by_cases hk : k1 = k
      · subst hk
        simp [List.filter_cons, h, lookup, ih]
      · cases hp : (lookup prev k1).isNone <;>
          simp [List.filter_cons, hp, lookup, hk, ih]

/-- The defining property of the object spread: a key of `newData` gets
`newData`'s value, any other key keeps its `prev` value. -/
theorem lookup_spread (prev nd : FormData) (k : String) :
    lookup (spread prev nd) k =
      match lookup nd k with
      | some v => some v
      | none => lookup prev k := by
  unfold spread
  rw [lookup_append, lookup_map_update]
  cases hp : lookup prev k with
  | some v => cases hn : lookup nd k <;> simp [hn]
  | none =>
      rw [lookup_filter_of_absent _ _ _ hp]
      cases hn : lookup nd k <;> simp [hn]

theorem lookup_isSome_of_mem (l : FormData) (e : String × Value) (h : e ∈ l) :
    (lookup l e.1).isSome = true := by
  induction l with
  | nil => cases h
  | cons e1 rest ih =>
      obtain ⟨k1, v1⟩ := e1
      by_cases hk : k1 = e.1
      · simp [lookup, hk]
      · rcases List.mem_cons.mp h with h1 | h1
        · subst h1; simp at hk
        · simp [lookup, hk, ih h1]

theorem lookup_eq_of_mem_nodup (l : FormData) (e : String × Value)
    (hn : (keys l).Nodup) (h : e ∈ l) : lookup l e.1 = some e.2 := by
  induction l with
  | nil => cases h
  | cons e1 rest ih =>
      obtain ⟨k1, v1⟩ := e1
      rcases List.mem_cons.mp h with h1 | h1
      · subst h1; simp [lookup]
      · have hk : k1 ≠ e.1 := by
          intro hk
          have : e.1 ∈ keys rest := List.mem_map_of_mem Prod.fst h1
          rw [← hk] at this
          exact (List.nodup_cons.mp hn).1 this
        have hrest : (keys rest).Nodup := (List.nodup_cons.mp hn).2
        simp [lookup, hk, ih hrest h1]

theorem map_id_of_mem {α : Type} (l : List α) (f : α → α)
    (h : ∀ a ∈ l, f a = a) : l.map f = l := by
  induction l with
  | nil => rfl
  | cons a rest ih =>
      rw [List.map_cons, h a (List.mem_cons_self a rest),
        ih fun a1 h1 => h a1 (List.mem_cons_of_mem a h1)]

/-- Spreading `p` over a state that already resulted from spreading `p` changes
nothing, as long as `p` has no duplicate keys (JavaScript objects never do). -/
theorem spread_idem (f p : FormData) (hp : (keys p).Nodup) :
    spread (spread f p) p = spread f p := by
  have hfilter : (p.filter fun e => (lookup (spread f p) e.1).isNone) = [] := by
    apply List.filter_eq_nil_iff.mpr
    intro e he
    have h1 : (lookup p e.1).isSome = true := lookup_isSome_of_mem p e he
    rw [lookup_spread]
    cases h : lookup p e.1
    · rw [h] at h1; cases h1
    · simp
  have hcomp :
      ((fun e : String × Value =>
          match lookup p e.1 with
          | some v => (e.1, v)
          | none => e) ∘ fun e : String × Value =>
          match lookup p e.1 with
          | some v => (e.1, v)
          | none => e) =
        fun e : String × Value =>
          match lookup p e.1 with
          | some v => (e.1, v)
          | none => e := by
    funext e
    cases h : lookup p e.1 <;> simp [Function.comp, h]
  have hmap : (spread f p).map (fun e : String × Value =>
      match lookup p e.1 with
      | some v => (e.1, v)
      | none => e) = spread f p := by
    unfold spread
    rw [List.map_append, List.map_map, hcomp]
    congr 1
    apply map_id_of_mem
    intro e he
    have hmem : e ∈ p := (List.mem_filter.mp he).1
    rw [lookup_eq_of_mem_nodup p e hp hmem]
  calc spread (spread f p) p
      = (spread f p).map (fun e : String × Value =>
          match lookup p e.1 with
          | some v => (e.1, v)
          | none => e)
        ++ p.filter (fun e => (lookup (spread f p) e.1).isNone) := rfl
    _ = spread f p ++ [] := by rw [hmap, hfilter]
    _ = spread f p := List.append_nil _

/-! ### Lemmas about the controller transitions -/

theorem isSubmitted_goToNextStep (N : Nat) (s : ControllerState) :
    (goToNextStep N s).isSubmitted = s.isSubmitted := by
  unfold goToNextStep
  split <;> rfl

theorem formData_goToNextStep (N : Nat) (s : ControllerState) :
    (goToNextStep N s).formData = s.formData := by
  unfold goToNextStep
  split <;> rfl

theorem isSubmitted_goToPreviousStep (s : ControllerState) :
    (goToPreviousStep s).isSubmitted = s.isSubmitted := by
  unfold goToPreviousStep
  split <;> rfl

theorem formData_goToPreviousStep (s : ControllerState) :
    (goToPreviousStep s).formData = s.formData := by
  unfold goToPreviousStep
  split <;> rfl

theorem currentStep_applyOp_le (N : Nat) (s : ControllerState) (op : Op)
    (h : s.currentStep ≤ N - 1) : (applyOp N s op).currentStep ≤ N - 1 := by
  cases op with
  | advance =>
      show (goToNextStep N s).currentStep ≤ N - 1
      unfold goToNextStep
      split
      · exact h
      · next hl =>
          have hne : s.currentStep ≠ N - 1 := by
            intro he
            exact hl (by simp [isLastStep, he])
          have hlt : s.currentStep < N - 1 := lt_of_le_of_ne h hne
          simpa using hlt
  | retreat =>
      show (goToPreviousStep s).currentStep ≤ N - 1
      unfold goToPreviousStep
      split
      · exact h
      · simpa using le_trans (Nat.sub_le _ _) h
  | merge d => exact h
  | submit d => exact h
  | reset =>
      show (resetForm s).currentStep ≤ N - 1
      simpa [resetForm] using Nat.zero_le _

theorem currentStep_runOps_le (N : Nat) (ops : List Op) :
    ∀ s : ControllerState, s.currentStep ≤ N - 1 →
      (runOps N s ops).currentStep ≤ N - 1 := by
  induction ops with
  | nil => intro s h; exact h
  | cons op rest ih =>
      intro s h
      exact ih (applyOp N s op) (currentStep_applyOp_le N s op h)

theorem onNext_last_eq (s : ControllerState) (d : FormData)
    (hl : isLastStep steps.length s = true) :
    onNext true s d =
      { s with
          formData := spread s.formData (spread s.formData d),
          isSubmitted := true } := by
  unfold onNext
  simp [hl, submitForm, updateFormData]

theorem onNext_not_last_isSubmitted (s : ControllerState) (d : FormData)
    (hl : isLastStep steps.length s = false) :
    (onNext true s d).isSubmitted = s.isSubmitted := by
  unfold onNext
  simp only [if_pos]
  rw [if_neg (by simp [hl])]
  rw [isSubmitted_goToNextStep]
  rfl

/-! ### The claims -/

/-- C1 (counterexample): the claim says `submitForm` shallow-merges its
argument into `formData` the way `updateFormData` does. At the concrete state
`{currentStep := 2, formData := {}, isSubmitted := false}` with the billing
fields as argument, `submitForm` leaves `formData` empty, whereas the claimed
merge would produce the billing fields. -/
theorem submitForm_merge_claim_cex :
    (submitForm ⟨2, [], false⟩ billingData).isSubmitted = true
  ∧ (submitForm ⟨2, [], false⟩ billingData).formData = []
  ∧ (submitForm ⟨2, [], false⟩ billingData).formData
      ≠ spread ([] : FormData) billingData := by
  refine ⟨rfl, rfl, ?_⟩
  decide

/-- C1 (amended): `submitForm` only sets `isSubmitted := true`, leaving
`currentStep` and `formData` unchanged; the shallow merge of the final data
is performed by the orchestrating caller, which passes the merged data to
`updateFormData` before invoking `submitForm`, so the orchestrated submit path
on the last step does merge the final data into `formData` (final's keys
overwriting existing ones) and sets `isSubmitted = true`. -/
theorem submitForm_sets_flag_merge_in_caller :
    (∀ (s : ControllerState) (data : FormData),
      submitForm s data = { s with isSubmitted := true })
  ∧ (∀ (s : ControllerState) (data : FormData),
      isLastStep steps.length s = true →
        (onNext true s data).isSubmitted = true
      ∧ (onNext true s data).currentStep = s.currentStep
      ∧ ∀ k : String,
          lookup (onNext true s data).formData k =
            match lookup data k with
            | some v => some v
            | none => lookup s.formData k) := by
  constructor
  · intro s data
    rfl
  · intro s data hl
    rw [onNext_last_eq s data hl]
    refine ⟨rfl, rfl, ?_⟩
    intro k
    rw [lookup_spread, lookup_spread]
    cases hd : lookup data k
    · cases hs : lookup s.formData k <;> simp
    · simp

/-- C1 (witness for the amended theorem): the orchestrated submit path at the
last step, applied to the empty state and the billing data, yields the billing
value for key `cvv`. -/
theorem submitForm_sets_flag_merge_in_caller_witness :
    lookup (onNext true ⟨2, [], false⟩ billingData).formData "cvv" =
      match lookup billingData "cvv" with
      | some v => some v
      | none => lookup ([] : FormData) "cvv" :=
  (submitForm_sets_flag_merge_in_caller.2 ⟨2, [], false⟩ billingData rfl).2.2 "cvv"

/-- C2: for every step count N ≥ 1 and every operation sequence run from the
initial state, `currentStep` stays within [0, N-1]; `goToNextStep` is a no-op
at the last index and otherwise increments by exactly 1, and
`goToPreviousStep` is a no-op at index 0 and otherwise decrements by exactly 1. -/
theorem currentStep_in_range_and_boundary_noops (N : Nat) (hN : 1 ≤ N) :
    (∀ ops : List Op, (runOps N initialState ops).currentStep ≤ N - 1)
  ∧ (∀ s : ControllerState, isLastStep N s = true → goToNextStep N s = s)
  ∧ (∀ s : ControllerState, isLastStep N s = false →
      goToNextStep N s = { s with currentStep := s.currentStep + 1 })
  ∧ (∀ s : ControllerState, isFirstStep s = true → goToPreviousStep s = s)
  ∧ (∀ s : ControllerState, isFirstStep s = false →
      goToPreviousStep s = { s with currentStep := s.currentStep - 1 }) := by
  refine ⟨?_, ?_, ?_, ?_, ?_⟩
  · intro ops
    exact currentStep_runOps_le N ops initialState (Nat.zero_le _)
  · intro s h
    unfold goToNextStep
    rw [if_pos h]
  · intro s h
    unfold goToNextStep
    rw [if_neg (by simp [h])]
  · intro s h
    unfold goToPreviousStep
    rw [if_pos h]
  · intro s h
    unfold goToPreviousStep
    rw [if_neg (by simp [h])]

/-- C2 (witness): the theorem instantiated at the concrete step count 3. -/
theorem currentStep_in_range_and_boundary_noops_witness :
    (∀ ops : List Op, (runOps 3 initialState ops).currentStep ≤ 3 - 1)
  ∧ (∀ s : ControllerState, isLastStep 3 s = true → goToNextStep 3 s = s)
  ∧ (∀ s : ControllerState, isLastStep 3 s = false →
      goToNextStep 3 s = { s with currentStep := s.currentStep + 1 })
  ∧ (∀ s : ControllerState, isFirstStep s = true → goToPreviousStep s = s)
  ∧ (∀ s : ControllerState, isFirstStep s = false →
      goToPreviousStep s = { s with currentStep := s.currentStep - 1 }) :=
  currentStep_in_range_and_boundary_noops 3 (by decide)

/-- C3: `goToPreviousStep` leaves `formData` and `isSubmitted` unchanged; in
particular every key present in `formData` before a backward navigation is
still present with the same value afterwards. -/
theorem retreat_preserves_data_and_flag (s : ControllerState) :
    (goToPreviousStep s).formData = s.formData
  ∧ (goToPreviousStep s).isSubmitted = s.isSubmitted
  ∧ ∀ (k : String) (v : Value), lookup s.formData k = some v →
      lookup (goToPreviousStep s).formData k = some v := by
  refine ⟨formData_goToPreviousStep s, isSubmitted_goToPreviousStep s, ?_⟩
  intro k v h
  rw [formData_goToPreviousStep s]
  exact h

/-- C3 (witness): a concrete state at step 1 holding one key; after going back
the key is still bound to the same value. -/
theorem retreat_preserves_data_and_flag_witness :
    lookup (goToPreviousStep ⟨1, [("firstName", Value.str "A")], false⟩).formData
        "firstName" = some (Value.str "A") :=
  (retreat_preserves_data_and_flag ⟨1, [("firstName", Value.str "A")], false⟩).2.2
    "firstName" (Value.str "A") (by decide)

/-- C4: `resetForm` yields exactly
`{currentStep := 0, formData := {}, isSubmitted := false}` from every state,
and that is exactly the state the hook has at construction. -/
theorem reset_yields_construction_state (s : ControllerState) :
    resetForm s = { currentStep := 0, formData := [], isSubmitted := false }
  ∧ initialState = { currentStep := 0, formData := [], isSubmitted := false }
  ∧ resetForm s = initialState :=
  ⟨rfl, rfl, rfl⟩

/-- C5: `updateFormData` produces the shallow merge: every key of the partial
maps to the partial's value (overwriting any existing value), and every other
key keeps its old value — one uniform equation whether or not the key was
previously present. -/
theorem updateFormData_shallow_merge (s : ControllerState) (newData : FormData)
    (k : String) :
    lookup (updateFormData s newData).formData k =
      match lookup newData k with
      | some v => some v
      | none => lookup s.formData k :=
  lookup_spread s.formData newData k

/-- C6: `updateFormData` is idempotent — merging the same partial twice in a
row yields the same state as merging it once (for a partial without duplicate
keys, as every JavaScript object is). -/
theorem updateFormData_idempotent (s : ControllerState) (p : FormData)
    (hp : (keys p).Nodup) :
    updateFormData (updateFormData s p) p = updateFormData s p := by
  show ({ s with formData := spread (spread s.formData p) p } : ControllerState)
    = { s with formData := spread s.formData p }
  rw [spread_idem s.formData p hp]

/-- C6 (witness): merging the personal-info fields twice from the initial
state equals merging them once. -/
theorem updateFormData_idempotent_witness :
    updateFormData (updateFormData initialState personalData) personalData
      = updateFormData initialState personalData :=
  updateFormData_idempotent initialState personalData (by decide)

/-- C7: under the UI-driven transition relation, `isSubmitted` turns from
false to true only through a successfully validated `onNext` taken while
`currentStep` is the last index, and the only transition out of a submitted
state is the reset to the initial state. -/
theorem submission_only_from_last_step (s s2 : ControllerState) (h : UiStep s s2) :
    (s.isSubmitted = false → s2.isSubmitted = true →
      s.currentStep = steps.length - 1 ∧ ∃ d : FormData, s2 = onNext true s d)
  ∧ (s.isSubmitted = true → s2 = initialState) := by
  constructor
  · intro h0 h1
    cases h with
    | next v d s hsub =>
        cases v with
        | false =>
            rw [show onNext false s d = s from rfl, h0] at h1
            cases h1
        | true =>
            cases hl : isLastStep steps.length s with
            | false =>
                rw [onNext_not_last_isSubmitted s d hl, h0] at h1
                cases h1
            | true =>
                refine ⟨?_, d, rfl⟩
                simp only [isLastStep, beq_iff_eq] at hl
                exact hl
    | prev s hsub =>
        have h2 : s.isSubmitted = true := by
          rw [← isSubmitted_goToPreviousStep s]
          exact h1
        rw [h0] at h2
        cases h2
    | reset s hsub =>
        rw [h0] at hsub
        cases hsub
  · intro h1
    cases h with
    | next v d s hsub => rw [h1] at hsub; cases hsub
    | prev s hsub => rw [h1] at hsub; cases hsub
    | reset s hsub => rfl

/-- C7 (witness): the concrete transition that submits the billing data from
step 2 of the editing state is a validated `onNext` at the last index. -/
theorem submission_only_from_last_step_witness :
    (⟨2, [], false⟩ : ControllerState).currentStep = steps.length - 1
  ∧ ∃ d : FormData,
      onNext true ⟨2, [], false⟩ billingData = onNext true ⟨2, [], false⟩ d :=
  (submission_only_from_last_step ⟨2, [], false⟩
    (onNext true ⟨2, [], false⟩ billingData)
    (UiStep.next true billingData ⟨2, [], false⟩ rfl)).1 rfl (by decide)

/-- C8 (counterexample): running the scenario with the submit of the billing
fields performed by the controller's `submitForm` operation, as the claim
states it, sets `isSubmitted` but leaves `formData` with the 8 keys of the
first two steps, not the claimed 12. -/
theorem scenario_as_stated_cex :
    (keys scenarioAsStated.formData).length = 8
  ∧ (keys scenarioAsStated.formData).length ≠ 12
  ∧ scenarioAsStated.isSubmitted = true
  ∧ scenarioAsStated.currentStep = 2 := by decide

/-- C8 (amended): the scenario with the billing fields submitted through the
orchestrated last-step path (which merges them via `updateFormData` before
calling `submitForm`) passes every intermediate check: 4 keys retained across
the first advance, formData unchanged by the retreat, 8 keys after the second
merge and advance, then `isSubmitted = true` with 12 keys, and the reset
restores the initial state. -/
theorem scenario_with_orchestrated_submit :
    sc1.currentStep = 0 ∧ (keys sc1.formData).length = 4
  ∧ sc2.currentStep = 1 ∧ sc2.formData = sc1.formData
  ∧ (keys sc2.formData).length = 4
  ∧ sc3.currentStep = 0 ∧ sc3.formData = sc2.formData
  ∧ sc4.currentStep = 1
  ∧ sc5.currentStep = 1 ∧ (keys sc5.formData).length = 8
  ∧ sc6.currentStep = 2 ∧ (keys sc6.formData).length = 8
  ∧ sc7.isSubmitted = true ∧ (keys sc7.formData).length = 12
  ∧ sc7.currentStep = 2
  ∧ sc8 = initialState ∧ sc8.isSubmitted = false := by decide

/-- C9: `getCurrentStepSchema` is a pure, total lookup: in every state
reachable by a sequence of controller operations from the initial state, the
current step indexes the fixed `stepSchemas` table in bounds (the table has
one schema per entry of `steps`), so the lookup hits no `undefined`. -/
theorem schema_lookup_total_on_reachable (ops : List Op) :
    (runOps steps.length initialState ops).currentStep < stepSchemas.length
  ∧ stepSchemas.length = steps.length
  ∧ getCurrentStepSchema (runOps steps.length initialState ops)
      = stepSchemas.get? (runOps steps.length initialState ops).currentStep
  ∧ (getCurrentStepSchema (runOps steps.length initialState ops)).isSome = true := by
  have hb : (runOps steps.length initialState ops).currentStep ≤ steps.length - 1 :=
    currentStep_runOps_le steps.length ops initialState (Nat.zero_le _)
  have hlt : (runOps steps.length initialState ops).currentStep < stepSchemas.length := by
    have h3 : steps.length - 1 = 2 := rfl
    have h4 : stepSchemas.length = 3 := rfl
    omega
  refine ⟨hlt, rfl, rfl, ?_⟩
  unfold getCurrentStepSchema
  cases hg : stepSchemas.get? (runOps steps.length initialState ops).currentStep with
  | none =>
      exact absurd hlt (by simpa using List.get?_eq_none.mp hg)
  | some sch => rfl

/-- C10: `submitForm` leaves `currentStep` and `formData` unchanged; the only
state field it writes is `isSubmitted`, which it sets to `true`. -/
theorem submitForm_frame (s : ControllerState) (data : FormData) :
    (submitForm s data).currentStep = s.currentStep
  ∧ (submitForm s data).formData = s.formData
  ∧ (submitForm s data).isSubmitted = true :=
  ⟨rfl, rfl, rfl⟩

end MultiStepForm
